import Mathlib

/-!
# Beartrap: a shallow embedding of the supervisor, the handler factory and the TCP trap

Sources embedded here:

* `beartrap.go` (package `main`): `main` from the construction of the handlers on,
  `initHandlers`, `validateHandlers`, `startHandlers`, `initTraps`, `validateTraps`,
  `startTraps`, `displayErrors`;
* `handler/handler.go`: `BaseHandler`, `New`, `BaseHandler.Validate`, `BaseHandler.Start`;
* `trap/tcptrap/tcp_trap.go`: `TCPTrap`, `New`, `Start`, `handleConnection`, `Validate`.

Conventions.  A Go `error` is identified with its message (`Error := String`) and a
possibly-nil error is an `Option Error`.  A `config.Params` is a string-keyed map of
strings; indexing a missing key yields the empty string, as in Go.  Effects (log lines,
method calls on collaborators, goroutine starts, process exit) are recorded as lists of
events, in program order.  Packages that the sources import but do not contain
(`config/validate`, `handler/sysloghandler`, `trap`, `broadcast`) enter as parameters.
-/

namespace Beartrap

/-! ## Basic values -/

/-- A non-nil Go `error`, identified with the text returned by its `Error()` method. -/
abbrev Error := String

/-- The type `config.Params`: a map from string keys to string values. -/
abbrev Params := List (String × String)

/-- Go map indexing `params[key]`: the value stored under `key`, or the zero value `""`
when the key is absent. -/
def Params.get (params : Params) (key : String) : String :=
  (params.lookup key).getD ""

/-- The value type `alert.Alert` as far as the core reads it: the message carried. -/
structure Alert where
  message : String
deriving DecidableEq

/-- A channel `chan alert.Alert`, identified by a number standing for its allocation. -/
abbrev Chan := Nat

/-! ## `strconv.Atoi` (Go standard library, 64-bit `int`) -/

/-- The two causes a `*strconv.NumError` can carry. -/
inductive NumError where
  | ErrSyntax
  | ErrRange
deriving DecidableEq

/-- The value of a decimal digit byte, `none` for any other character. -/
def digitOf (c : Char) : Option Nat :=
  if '0' ≤ c ∧ c ≤ '9' then some (c.toNat - '0'.toNat) else none

/-- The digit loop of `strconv.ParseUint(s, 10, 64)`: `n` is the value read so far.  A
non-digit stops with `(0, ErrSyntax)`, an overflow of 64 bits stops at once with
`(1<<64 - 1, ErrRange)`. -/
def parseUintLoop (n : Nat) : List Char → Nat × Option NumError
  | [] => (n, none)
  | c :: rest =>
    match digitOf c with
    | none => (0, some NumError.ErrSyntax)
    | some d =>
      if 2 ^ 64 ≤ 10 * n + d then (2 ^ 64 - 1, some NumError.ErrRange)
      else parseUintLoop (10 * n + d) rest

/-- The function `strconv.ParseUint(s, 10, 64)` on the characters of `s`. -/
def parseUint (cs : List Char) : Nat × Option NumError :=
  match cs with
  | [] => (0, some NumError.ErrSyntax)
  | _ :: _ => parseUintLoop 0 cs

/-- The function `strconv.Atoi` with a 64-bit `int`: an optional sign, then at least one
decimal digit.  A malformed text gives `(0, ErrSyntax)`; a value outside the 64-bit
range gives the nearest bound together with `ErrRange`. -/
def Atoi (s : String) : Int × Option NumError :=
  match s.data with
  | [] => (0, some NumError.ErrSyntax)
  | c :: rest =>
    let neg : Bool := c = '-'
    let body := if c = '+' ∨ c = '-' then rest else c :: rest
    match parseUint body with
    | (_, some NumError.ErrSyntax) => (0, some NumError.ErrSyntax)
    | (un, _) =>
      if !neg ∧ 2 ^ 63 ≤ un then ((2 : Int) ^ 63 - 1, some NumError.ErrRange)
      else if neg ∧ 2 ^ 63 < un then (-(2 : Int) ^ 63, some NumError.ErrRange)
      else (if neg then -(un : Int) else (un : Int), none)

/-! ## Package `config/validate` (imported, not among the sources) -/

/-- The three functions of package `validate` that the sources call.  Each returns `nil`
(`none`) when it accepts its argument and an error otherwise.  The package is not among
the sources, so the functions are parameters of everything that calls them. -/
structure Validators where
  validateInt : String → Option Error
  validatePort : String → Option Error
  validateHost : String → Option Error

/-! ## Package `handler` -/

namespace handler

/-- The struct `BaseHandler`.  The field `h`, a pointer back to the concrete handler that
holds this base, is only used by `Start` to reach `HandleAlert`; there it is passed
explicitly. -/
structure BaseHandler where
  Threshold : Int
  receiver : Chan
  params : Params
deriving DecidableEq

/-- Modelled from the spec: the concrete handler of package `sysloghandler`, which is
imported by `handler.go` but absent from the sources.  Following the design note on
explicit composition, it holds (does not inherit) the shared base handler, next to the
parameter set it was built from. -/
structure SyslogHandler where
  params : Params
  baseHandler : BaseHandler
deriving DecidableEq

/-- Modelled from the spec: the constructor `sysloghandler.New(params, baseHandler)`,
absent from the sources; it returns a fresh, non-nil handler around the base handler. -/
def sysloghandlerNew (params : Params) (baseHandler : BaseHandler) : SyslogHandler :=
  { params := params, baseHandler := baseHandler }

/-- A non-nil value of `handler.Interface`: one constructor per case of the type switch
in `New`. -/
inductive Handler where
  | syslog (h : SyslogHandler)
deriving DecidableEq

/-- The base handler a concrete handler holds. -/
def Handler.base : Handler → BaseHandler
  | Handler.syslog h => h.baseHandler

/-- The function `handler.New`.  The concrete handler receives a pointer to the base
handler, so it sees the `Threshold` that `New` stores afterwards; the embedding therefore
hands it the base handler in its final state.  The error of `strconv.Atoi` is dropped as
in the source. -/
def New (params : Params) (c : Chan) : Option Handler × Option Error :=
  let baseHandler : BaseHandler := { Threshold := 0, receiver := c, params := params }
  if params.get "type" = "syslog" then
    let baseHandler := { baseHandler with Threshold := (Atoi (params.get "threshold")).1 }
    (some (Handler.syslog (sysloghandlerNew params baseHandler)), none)
  else
    (none, some "Unknown handler type")

/-- The method `BaseHandler.Validate`.  The tagless `switch` runs the first case whose
condition holds and no other. -/
def BaseHandler.Validate (v : Validators) (handler : BaseHandler) : List Error :=
  let errors : List Error := []
  match v.validateInt (handler.params.get "threshold") with
  | some err => errors ++ ["Invalid threshold: " ++ err]
  | none =>
    if handler.Threshold < 0 then errors ++ ["Threshold cannot be negative"]
    else errors

/-- An error produced by the first case of `BaseHandler.Validate`. -/
def IsInvalidThreshold (e : Error) : Prop := ∃ cause : String, e = "Invalid threshold: " ++ cause

/-- The error produced by the second case of `BaseHandler.Validate`. -/
def thresholdNegative : Error := "Threshold cannot be negative"

/-- The value of a text of decimal digits, most significant digit first, on top of the
value `n` of the digits before it. -/
def decimalFrom (n : Nat) (ds : List Char) : Nat :=
  ds.foldl (fun n c => 10 * n + (c.toNat - '0'.toNat)) n

/-- The text `s` is the decimal text of a negative integer: a minus sign followed by at
least one decimal digit, the digits denoting a number other than zero. -/
def IsNegativeDecimal (s : String) : Prop :=
  ∃ ds : List Char, s.data = '-' :: ds ∧ ds ≠ [] ∧ (∀ c ∈ ds, '0' ≤ c ∧ c ≤ '9') ∧
    0 < decimalFrom 0 ds

/-- What the receive loop of a handler does, in program order. -/
inductive LoopEvent where
  | log (line : String)
  | receive (a : Alert)
  | handleAlert (a : Alert)
deriving DecidableEq

/-- The method `BaseHandler.Start`, run for at most `fuel` iterations of its `for` loop.
`pending` holds the alerts that are delivered on `handler.receiver`, oldest first, and
`trace` what the loop has done so far.  `HandleAlert` is called on the concrete handler
`handler.h` in the same goroutine, so it has returned when the next iteration begins.
The result is the trace together with `true` when the loop is parked on the receive with
nothing left to read, and `false` when the fuel ran out first. -/
def BaseHandler.Start : Nat → List Alert → List LoopEvent → List LoopEvent × Bool
  | 0, _, trace => (trace, false)
  | fuel + 1, pending, trace =>
    let trace := trace ++ [LoopEvent.log "Checking for alerts"]
    match pending with
    | [] => (trace, true)
    | a :: rest =>
      BaseHandler.Start fuel rest
        (trace ++ [LoopEvent.receive a, LoopEvent.log "Got one", LoopEvent.handleAlert a])

/-- The alerts `HandleAlert` was called with, in call order. -/
def handledAlerts (trace : List LoopEvent) : List Alert :=
  trace.filterMap fun e =>
    match e with
    | LoopEvent.handleAlert a => some a
    | _ => none

/-- The events of one full iteration of the receive loop for the alert `a`. -/
def iteration (a : Alert) : List LoopEvent :=
  [LoopEvent.log "Checking for alerts", LoopEvent.receive a, LoopEvent.log "Got one",
    LoopEvent.handleAlert a]

end handler

/-! ## Package `tcptrap` -/

namespace tcptrap

/-- The interface `trapInterface` as `Validate` sees it: the list the held base trap
returns from its own `Validate`.  Calls of its other method, `TriggerAlert`, are recorded
as events. -/
structure trapInterface where
  Validate : List Error
deriving DecidableEq

/-- A non-nil `simpleConn`: `remoteAddr` is the text `RemoteAddr().String()` returns. -/
structure simpleConn where
  id : Nat
  remoteAddr : String
deriving DecidableEq

/-- The struct `TCPTrap`. -/
structure TCPTrap where
  baseTrap : trapInterface
  host : String
  port : Int
  params : Params
deriving DecidableEq

/-- The function `tcptrap.New`; the error of `strconv.Atoi` is dropped as in the source. -/
def New (params : Params) (baseTrap : trapInterface) : TCPTrap :=
  { baseTrap := baseTrap
    params := params
    port := (Atoi (params.get "port")).1
    host := params.get "host" }

/-- The method `TCPTrap.Validate`. -/
def TCPTrap.Validate (v : Validators) (trap : TCPTrap) : List Error :=
  let errors := trap.baseTrap.Validate
  let errors :=
    match v.validatePort (trap.params.get "port") with
    | some err => errors ++ ["Invalid port: " ++ err]
    | none => errors
  let errors :=
    match v.validateHost (trap.params.get "host") with
    | some err => errors ++ ["Invalid host: " ++ err]
    | none => errors
  errors

/-- What a running trap does, in program order. -/
inductive TrapEvent where
  | log (line : String)
  | triggerAlert (message : String)
  | close (c : simpleConn)
  | fatal (line : String)
deriving DecidableEq

/-- How a piece of trap code ends. -/
inductive Outcome where
  | returned
  | panicked
  | exited
  | blocked
deriving DecidableEq

/-- The method `TCPTrap.handleConnection`.  Its argument is an interface value and may be
nil (`none`); evaluating `c.Close` for the `defer` then panics before anything else
happens.  For a connection, `TriggerAlert` is called with the message and the deferred
`Close` runs when the function returns. -/
def TCPTrap.handleConnection (_trap : TCPTrap) (c : Option simpleConn) :
    List TrapEvent × Outcome :=
  match c with
  | none => ([], Outcome.panicked)
  | some c =>
    ([TrapEvent.triggerAlert ("Received connection from " ++ c.remoteAddr), TrapEvent.close c],
      Outcome.returned)

/-- The messages `TriggerAlert` was called with, in call order. -/
def alertMessages (events : List TrapEvent) : List String :=
  events.filterMap fun e =>
    match e with
    | TrapEvent.triggerAlert message => some message
    | _ => none

/-- The connections `Close` was called on, in call order. -/
def closedConns (events : List TrapEvent) : List simpleConn :=
  events.filterMap fun e =>
    match e with
    | TrapEvent.close c => some c
    | _ => none

/-- The lines written to the log, in order. -/
def logLines (events : List TrapEvent) : List String :=
  events.filterMap fun e =>
    match e with
    | TrapEvent.log line => some line
    | _ => none

/-- A non-nil error returned by `Accept`: its text, whether the type assertion
`err.(net.Error)` succeeds, and what `Temporary()` then answers. -/
structure AcceptError where
  message : String
  isNetError : Bool
  temporary : Bool
deriving DecidableEq

/-- The pair `l.Accept()` returns. -/
structure AcceptResult where
  conn : Option simpleConn
  err : Option AcceptError
deriving DecidableEq

/-- The lines the error check in the accept loop writes for one result of `Accept`. -/
def acceptLog (r : AcceptResult) : List TrapEvent :=
  match r.err with
  | none => []
  | some e =>
    if e.isNetError ∧ ¬ e.temporary then
      [TrapEvent.log ("Error accepting connection: " ++ e.message)]
    else []

/-- The `for` loop of `TCPTrap.Start`, fed with the successive results of `l.Accept()`.
When the results are used up the loop is blocked in `Accept`. -/
def TCPTrap.acceptLoop (trap : TCPTrap) : List AcceptResult → List TrapEvent × Outcome
  | [] => ([], Outcome.blocked)
  | r :: rest =>
    match trap.handleConnection r.conn with
    | (events, Outcome.returned) =>
      let next := TCPTrap.acceptLoop trap rest
      (acceptLog r ++ events ++ next.1, next.2)
    | (events, outcome) => (acceptLog r ++ events, outcome)

/-- The method `TCPTrap.Start`: `listenErr` is the error of `net.Listen` (`none` for nil)
and `accepts` the successive results of `l.Accept()`. -/
def TCPTrap.Start (trap : TCPTrap) (listenErr : Option Error) (accepts : List AcceptResult) :
    List TrapEvent × Outcome :=
  match listenErr with
  | some err =>
    ([TrapEvent.fatal ("Unable to open tcp port " ++ toString trap.port ++ ": " ++ err)],
      Outcome.exited)
  | none => trap.acceptLoop accepts

end tcptrap

/-! ## Package `main` -/

/-- What `main` does, in program order.  Handlers and traps are named by their index in
the slice that holds them, which is also their index in the configuration.  The event of
a call of `Init` also records what the call returned. -/
inductive Event where
  | handlerInit (i : Nat) (returned : Option Error)
  | addReceiver (c : Chan)
  | validateHandler (i : Nat)
  | startHandler (i : Nat)
  | validateTrap (i : Nat)
  | startTrap (i : Nat)
  | println (e : Error)
  | fatal (line : String)
  | exit (code : Int)
  | panic
  | sleepForever
deriving DecidableEq

/-- The collaborators of `main` whose code is not among the sources: the methods `Init`
and `Validate` of the concrete handler behind `handler.Interface`, the factory
`trap.New`, and the method `Validate` of the traps it returns. -/
structure Collaborators (Trap : Type) where
  handlerInit : handler.Handler → Option Error
  handlerValidate : handler.Handler → List Error
  trapNew : Params → Except Error Trap
  trapValidate : Trap → List Error

section supervisor

variable {Trap : Type} (env : Collaborators Trap)

/-- The function `displayErrors`. -/
def displayErrors (errors : List Error) : List Event :=
  errors.map Event.println

/-- The loop of `initHandlers` from index `i` on, with the handlers built so far.  The
channel made in iteration `i` is channel `i`.  The statement `handler.Init()` calls the
method and drops what it returns. -/
def initHandlersLoop (i : Nat) (handlers : List handler.Handler) :
    List Params → List Event × Option (List handler.Handler) × Option Error
  | [] => ([], some handlers, none)
  | params :: rest =>
    match handler.New params i with
    | (_, some err) => ([], none, some err)
    | (none, none) => ([Event.panic], none, none)
    | (some h, none) =>
      let next := initHandlersLoop (i + 1) (handlers ++ [h]) rest
      (Event.handlerInit i (env.handlerInit h) :: Event.addReceiver i :: next.1, next.2)

/-- The function `initHandlers`. -/
def initHandlers (handlerParams : List Params) :
    List Event × Option (List handler.Handler) × Option Error :=
  initHandlersLoop env 0 [] handlerParams

/-- The loop of `validateHandlers` from index `i` on. -/
def validateHandlersLoop (i : Nat) (errors : List Error) :
    List handler.Handler → List Event × List Error
  | [] => ([], errors)
  | h :: rest =>
    let next := validateHandlersLoop (i + 1) (errors ++ env.handlerValidate h) rest
    (Event.validateHandler i :: next.1, next.2)

/-- The function `validateHandlers`. -/
def validateHandlers (handlers : List handler.Handler) : List Event × List Error :=
  validateHandlersLoop env 0 [] handlers

/-- The function `startHandlers`: one `go handlers[i].Start()` per index. -/
def startHandlers (handlers : List handler.Handler) : List Event :=
  (List.range handlers.length).map Event.startHandler

/-- The loop of `initTraps`, with the traps built so far. -/
def initTrapsLoop (traps : List Trap) : List Params → Except Error (List Trap)
  | [] => Except.ok traps
  | params :: rest =>
    match env.trapNew params with
    | Except.error err => Except.error err
    | Except.ok trap => initTrapsLoop (traps ++ [trap]) rest

/-- The function `initTraps`. -/
def initTraps (trapParams : List Params) : Except Error (List Trap) :=
  initTrapsLoop env [] trapParams

/-- The loop of `validateTraps` from index `i` on. -/
def validateTrapsLoop (i : Nat) (errors : List Error) : List Trap → List Event × List Error
  | [] => ([], errors)
  | t :: rest =>
    let next := validateTrapsLoop (i + 1) (errors ++ env.trapValidate t) rest
    (Event.validateTrap i :: next.1, next.2)

/-- The function `validateTraps`. -/
def validateTraps (traps : List Trap) : List Event × List Error :=
  validateTrapsLoop env 0 [] traps

/-- The function `startTraps`: one `go traps[i].Start()` per index. -/
def startTraps (traps : List Trap) : List Event :=
  (List.range traps.length).map Event.startTrap

/-- The function `main` once the two parameter lists have been read from the
configuration: everything it does from the call of `initHandlers` on. -/
def main (trapParams handlerParams : List Params) : List Event :=
  match initHandlers env handlerParams with
  | (ev0, _, some err) => ev0 ++ [Event.fatal ("Error initializing handlers: " ++ err)]
  | (ev0, none, none) => ev0
  | (ev0, some handlers, none) =>
    let validated := validateHandlers env handlers
    if validated.2.length > 0 then
      ev0 ++ validated.1 ++ displayErrors validated.2 ++ [Event.exit (-1)]
    else
      let started := ev0 ++ validated.1 ++ startHandlers handlers
      match initTraps env trapParams with
      | Except.error err => started ++ [Event.fatal ("Error initializing traps: " ++ err)]
      | Except.ok traps =>
        let validatedTraps := validateTraps env traps
        if validatedTraps.2.length > 0 then
          started ++ validatedTraps.1 ++ displayErrors validatedTraps.2 ++ [Event.exit (-1)]
        else
          started ++ validatedTraps.1 ++ startTraps traps ++ [Event.sleepForever]

end supervisor

/-- The events `initHandlers` can produce. -/
def Event.isSetup : Event → Bool
  | Event.handlerInit _ _ => true
  | Event.addReceiver _ => true
  | Event.panic => true
  | _ => false

/-- In the trace `tr`, every occurrence of `b` comes after an occurrence of `a`. -/
def CalledBefore (tr : List Event) (a b : Event) : Prop :=
  ∀ pre post, tr = pre ++ b :: post → a ∈ pre

/-- The errors `displayErrors` printed, in order. -/
def displayed (tr : List Event) : List Error :=
  tr.filterMap fun e =>
    match e with
    | Event.println err => some err
    | _ => none

section startupClaims

variable {Trap : Type} (env : Collaborators Trap)

/-- The ordering half of all-or-nothing startup, in the words of the spec: in the run of
`main`, `Start` is called on a handler or a trap only after `Validate` has been called on
every handler and on every trap of the configuration. -/
def ValidateAllBeforeAnyStart (trapParams handlerParams : List Params) : Prop :=
  ∀ i : Nat,
    (∀ j, j < handlerParams.length →
      CalledBefore (main env trapParams handlerParams) (Event.validateHandler j)
          (Event.startHandler i) ∧
        CalledBefore (main env trapParams handlerParams) (Event.validateHandler j)
          (Event.startTrap i)) ∧
    (∀ j, j < trapParams.length →
      CalledBefore (main env trapParams handlerParams) (Event.validateTrap j)
          (Event.startHandler i) ∧
        CalledBefore (main env trapParams handlerParams) (Event.validateTrap j)
          (Event.startTrap i))

/-- The other half of all-or-nothing startup, in the words of the spec: if `Validate` of
any handler or of any trap of the configuration returns a non-empty list, `Start` is
called on no handler and on no trap. -/
def NoStartWhenInvalid (trapParams handlerParams : List Params) : Prop :=
  ((∃ handlers, (initHandlers env handlerParams).2 = (some handlers, none) ∧
        ∃ h ∈ handlers, env.handlerValidate h ≠ []) ∨
      ∃ traps, initTraps env trapParams = Except.ok traps ∧
        ∃ t ∈ traps, env.trapValidate t ≠ []) →
    ∀ i : Nat, Event.startHandler i ∉ main env trapParams handlerParams ∧
      Event.startTrap i ∉ main env trapParams handlerParams

/-- Collection of validation errors across the whole configuration, in the words of the
spec: whenever `main` exits because of validation errors, it has called `Validate` on
every handler and on every trap, and what it displays is the concatenation of the error
lists of all handlers and all traps. -/
def CollectsAllErrors (trapParams handlerParams : List Params) : Prop :=
  Event.exit (-1) ∈ main env trapParams handlerParams →
    (∀ j, j < handlerParams.length →
      Event.validateHandler j ∈ main env trapParams handlerParams) ∧
    (∀ j, j < trapParams.length →
      Event.validateTrap j ∈ main env trapParams handlerParams) ∧
    ∃ handlers traps, (initHandlers env handlerParams).2 = (some handlers, none) ∧
      initTraps env trapParams = Except.ok traps ∧
      displayed (main env trapParams handlerParams) =
        handlers.flatMap env.handlerValidate ++ traps.flatMap env.trapValidate

end startupClaims

/-! ## Sample collaborators

Concrete values for the absent packages, used to run the code on concrete
configurations. -/

/-- Modelled from the spec: the functions of package `validate`, "pure functions
validating primitive parameter strings (port number, hostname, integer)".  An integer is
what `strconv.Atoi` parses, a port is an integer in the range [1, 65535], and a host is a
non-empty text of letters, digits, dots and hyphens. -/
def specValidators : Validators where
  validateInt s :=
    match (Atoi s).2 with
    | none => none
    | some _ => some "not an integer"
  validatePort s :=
    match Atoi s with
    | (n, none) => if 1 ≤ n ∧ n ≤ 65535 then none else some "port out of range"
    | (_, some _) => some "not a number"
  validateHost s :=
    if s.data ≠ [] ∧ s.data.all (fun c => c.isAlphanum || c = '.' || c = '-') then none
    else some "malformed host name"

/-- Modelled from the spec: the base trap of package `trap` (absent from the sources), the
"held base/common validator for shared fields"; a TCP trap composes no shared field, so
it finds nothing to report. -/
def specBaseTrap : tcptrap.trapInterface := { Validate := [] }

/-- Modelled from the spec: the type-keyed factory `trap.New` (absent from the sources),
which "dispatches to the matching concrete constructor and returns an error classified
as UnknownType if the discriminator matches no registered implementation"; the reference
discriminator is `"tcp"`. -/
def specTrapNew (params : Params) : Except Error tcptrap.TCPTrap :=
  if params.get "type" = "tcp" then Except.ok (tcptrap.New params specBaseTrap)
  else Except.error "Unknown trap type"

/-- Modelled from the spec: the collaborators of `main`.  The concrete handler validates
through the base handler it holds and its `Init` succeeds; traps come from the factory
and validate as TCP traps. -/
def specCollaborators : Collaborators tcptrap.TCPTrap where
  handlerInit _ := none
  handlerValidate h := h.base.Validate specValidators
  trapNew := specTrapNew
  trapValidate t := t.Validate specValidators

/-- Modelled from the spec: collaborators as in `specCollaborators`, except that `Init`
of the concrete handler fails to open its log sink. -/
def sinkDownCollaborators : Collaborators tcptrap.TCPTrap :=
  { specCollaborators with handlerInit := fun _ => some "cannot open the log sink" }

/-- A handler parameter set with threshold `1`. -/
def goodHandler : Params := [("type", "syslog"), ("threshold", "1")]

/-- A handler parameter set whose threshold is not an integer. -/
def badHandler : Params := [("type", "syslog"), ("threshold", "many")]

/-- A trap parameter set that validates. -/
def goodTrap : Params := [("type", "tcp"), ("host", "localhost"), ("port", "2222")]

/-- A trap parameter set whose port is outside [1, 65535]. -/
def badTrap : Params := [("type", "tcp"), ("host", "localhost"), ("port", "0")]

/-! ## Facts about `strconv.Atoi` -/

theorem digitOf_of_digit (c : Char) (h : '0' ≤ c ∧ c ≤ '9') :
    digitOf c = some (c.toNat - '0'.toNat) := by
  simp [digitOf, h]

theorem parseUintLoop_digits (ds : List Char) :
    ∀ n : Nat, (∀ c ∈ ds, '0' ≤ c ∧ c ≤ '9') →
      (parseUintLoop n ds).2 ≠ some NumError.ErrSyntax ∧
        (0 < handler.decimalFrom n ds → 0 < (parseUintLoop n ds).1) := by
  induction ds with
  | nil =>
    intro n _
    simp [parseUintLoop, handler.decimalFrom]
  | cons c rest ih =>
    intro n hds
    have hc : '0' ≤ c ∧ c ≤ '9' := hds c (List.mem_cons_self c rest)
    have hrest : ∀ x ∈ rest, '0' ≤ x ∧ x ≤ '9' := fun x hx => hds x (List.mem_cons_of_mem c hx)
    rw [parseUintLoop, digitOf_of_digit c hc]
    dsimp only
    by_cases hov : 2 ^ 64 ≤ 10 * n + (c.toNat - '0'.toNat)
    · rw [if_pos hov]
      simp
    · rw [if_neg hov]
      have := ih (10 * n + (c.toNat - '0'.toNat)) hrest
      simpa [handler.decimalFrom] using this

theorem Atoi_negative (s : String) (h : handler.IsNegativeDecimal s) : (Atoi s).1 < 0 := by
  obtain ⟨ds, hs, hne, hdigits, hpos⟩ := h
  have hloop := parseUintLoop_digits ds 0 hdigits
  have hparse : parseUint ds = parseUintLoop 0 ds := by
    cases ds with
    | nil => exact absurd rfl hne
    | cons c rest => rfl
  have hun : 0 < (parseUintLoop 0 ds).1 := hloop.2 hpos
  have hsyn := hloop.1
  unfold Atoi
  rw [hs]
  simp only [hparse, decide_True, or_true, if_true]
  rcases hres : parseUintLoop 0 ds with ⟨un, err⟩
  rw [hres] at hun hsyn
  simp only at hun hsyn
  cases err with
  | none =>
    simp only [Bool.not_true, Bool.false_eq_true, false_and, if_false, true_and]
    split_ifs
    · simp
    · simp
      omega
  | some e =>
    cases e with
    | ErrSyntax => exact absurd rfl hsyn
    | ErrRange =>
      simp only [Bool.not_true, Bool.false_eq_true, false_and, if_false, true_and]
      split_ifs
      · simp
      · simp
        omega

/-! ## The decimal text Lean prints for an integer -/

theorem decimalFrom_eq (ds : List Char) :
    ∀ m : Nat, handler.decimalFrom m ds = m * 10 ^ ds.length + handler.decimalFrom 0 ds := by
  induction ds with
  | nil => intro m; simp [handler.decimalFrom]
  | cons c rest ih =>
    intro m
    have h1 := ih (10 * m + (c.toNat - '0'.toNat))
    have h2 := ih (10 * 0 + (c.toNat - '0'.toNat))
    simp only [handler.decimalFrom, List.foldl_cons, List.length_cons] at h1 h2 ⊢
    rw [h1, h2]
    ring

theorem digitChar_digit (k : Nat) (hk : k < 10) :
    ('0' ≤ Nat.digitChar k ∧ Nat.digitChar k ≤ '9') ∧
      (Nat.digitChar k).toNat - '0'.toNat = k := by
  interval_cases k <;> decide

theorem toDigitsCore_decimal (fuel : Nat) :
    ∀ (n : Nat) (acc : List Char), n < fuel → (∀ c ∈ acc, '0' ≤ c ∧ c ≤ '9') →
      Nat.toDigitsCore 10 fuel n acc ≠ [] ∧
        (∀ c ∈ Nat.toDigitsCore 10 fuel n acc, '0' ≤ c ∧ c ≤ '9') ∧
        handler.decimalFrom 0 (Nat.toDigitsCore 10 fuel n acc) =
          n * 10 ^ acc.length + handler.decimalFrom 0 acc := by
  induction fuel with
  | zero => intro n acc h; omega
  | succ fuel ih =>
    intro n acc hn hacc
    have hd := digitChar_digit (n % 10) (Nat.mod_lt n (by decide))
    have hacc2 : ∀ c ∈ Nat.digitChar (n % 10) :: acc, '0' ≤ c ∧ c ≤ '9' := by
      intro c hc
      rcases List.mem_cons.mp hc with hc | hc
      · rw [hc]; exact hd.1
      · exact hacc c hc
    have hval : handler.decimalFrom 0 (Nat.digitChar (n % 10) :: acc) =
        (n % 10) * 10 ^ acc.length + handler.decimalFrom 0 acc := by
      have hd2 : (Nat.digitChar (n % 10)).toNat - 48 = n % 10 := hd.2
      have := decimalFrom_eq acc (n % 10)
      simpa [handler.decimalFrom, hd2] using this
    rw [Nat.toDigitsCore]
    by_cases h0 : n / 10 = 0
    · simp only [h0, if_true]
      refine ⟨by simp, hacc2, ?_⟩
      rw [hval]
      have : n % 10 = n := Nat.mod_eq_of_lt (by omega)
      rw [this]
    · simp only [h0, if_false]
      have hlt : n / 10 < fuel := by omega
      obtain ⟨h1, h2, h3⟩ := ih (n / 10) (Nat.digitChar (n % 10) :: acc) hlt hacc2
      refine ⟨h1, h2, ?_⟩
      rw [h3, hval, List.length_cons, pow_succ]
      have hn10 : n * 10 ^ acc.length = (10 * (n / 10) + n % 10) * 10 ^ acc.length := by
        rw [Nat.div_add_mod n 10]
      rw [hn10]
      ring

theorem isNegativeDecimal_toString (n : Int) (h : n < 0) :
    handler.IsNegativeDecimal (toString n) := by
  cases n with
  | ofNat m => exact absurd h (by simp)
  | negSucc m =>
    have hspec := toDigitsCore_decimal (m + 1 + 1) (m + 1) [] (by omega) (by simp)
    refine ⟨Nat.toDigits 10 (m + 1), ?_, hspec.1, hspec.2.1, ?_⟩
    · show ("-" ++ Nat.repr (m + 1)).data = _
      simp [Nat.repr, List.asString]
    · have := hspec.2.2
      simp only [handler.decimalFrom, List.foldl_nil, List.length_nil, pow_zero, mul_one,
        add_zero] at this
      simp only [Nat.toDigits, handler.decimalFrom]
      omega

/-! ## The handler factory and `BaseHandler.Validate` -/

theorem invalidThreshold_ne_negative (cause : String) :
    "Invalid threshold: " ++ cause ≠ handler.thresholdNegative := by
  intro h
  have := congrArg String.data h
  simp [handler.thresholdNegative] at this

/-- C2, as the code has it: the two checks of `BaseHandler.Validate` are the cases of one
`switch`, so they are alternatives.  For every handler and every `validate.Int`, the list
is the single "Invalid threshold" error when `validate.Int` rejects the parameter,
otherwise the single "Threshold cannot be negative" error when the stored threshold is
negative, otherwise empty; it never holds more than one error. -/
theorem handler.BaseHandler.Validate_alternatives (v : Validators) (h : handler.BaseHandler) :
    h.Validate v =
        (match v.validateInt (h.params.get "threshold") with
          | some err => ["Invalid threshold: " ++ err]
          | none => if h.Threshold < 0 then [handler.thresholdNegative] else []) ∧
      (h.Validate v).length ≤ 1 := by
  unfold handler.BaseHandler.Validate handler.thresholdNegative
  cases v.validateInt (h.params.get "threshold") with
  | some err => simp
  | none => by_cases hneg : h.Threshold < 0 <;> simp [hneg]

/-- C2, refuted as stated: no handler, whatever `validate.Int` does, gets both the
"Invalid threshold" error and the "Threshold cannot be negative" error from
`BaseHandler.Validate`. -/
theorem handler.BaseHandler.Validate_never_both :
    ¬ ∃ (v : Validators) (h : handler.BaseHandler),
        (∃ e ∈ h.Validate v, handler.IsInvalidThreshold e) ∧
          handler.thresholdNegative ∈ h.Validate v := by
  rintro ⟨v, h, ⟨e, he, cause, hcause⟩, hneg⟩
  unfold handler.BaseHandler.Validate at he hneg
  cases hv : v.validateInt (h.params.get "threshold") with
  | some err =>
    rw [hv] at hneg
    simp only [List.nil_append, List.mem_singleton] at hneg
    exact invalidThreshold_ne_negative err hneg.symm
  | none =>
    rw [hv] at he
    by_cases hlt : h.Threshold < 0
    · simp only [hlt, if_true, List.nil_append, List.mem_singleton] at he
      rw [he] at hcause
      exact invalidThreshold_ne_negative cause hcause.symm
    · simp [hlt] at he

/-- C7: `handler.New` returns a nil handler together with the "Unknown handler type" error
exactly when `params["type"]` is not `"syslog"`, and a non-nil handler together with a nil
error exactly when it is; a parameter set without a `"type"` key is of the first kind. -/
theorem handler.New_fails_iff_unregistered (params : Params) (c : Chan) :
    (((handler.New params c).1 = none ∧ (handler.New params c).2 = some "Unknown handler type") ↔
        params.get "type" ≠ "syslog") ∧
      (((handler.New params c).1 ≠ none ∧ (handler.New params c).2 = none) ↔
        params.get "type" = "syslog") ∧
      (params.lookup "type" = none →
        handler.New params c = (none, some "Unknown handler type")) := by
  unfold handler.New
  refine ⟨?_, ?_, ?_⟩
  · by_cases ht : params.get "type" = "syslog" <;> simp [ht]
  · by_cases ht : params.get "type" = "syslog" <;> simp [ht]
  · intro hmiss
    have ht : params.get "type" ≠ "syslog" := by
      simp [Params.get, hmiss]
    simp [ht]

/-- C7 at concrete inputs: a parameter set without a `"type"` key is refused, and so is
the type `"carrier-pigeon"`, while `"syslog"` is served. -/
theorem handler.New_fails_iff_unregistered_witness :
    handler.New [("threshold", "3")] 0 = (none, some "Unknown handler type") ∧
      (handler.New [("type", "carrier-pigeon")] 0).1 = none ∧
      (handler.New goodHandler 0).2 = none :=
  ⟨(handler.New_fails_iff_unregistered [("threshold", "3")] 0).2.2 (by decide),
    ((handler.New_fails_iff_unregistered [("type", "carrier-pigeon")] 0).1.2 (by decide)).1,
    ((handler.New_fails_iff_unregistered goodHandler 0).2.1.2 (by decide)).2⟩

/-- C8, as the code has it: for a handler built by `handler.New` from a parameter set of
type `"syslog"`, `BaseHandler.Validate` on the base handler it holds reports an
"Invalid threshold" error whenever `validate.Int` rejects `params["threshold"]`, and
reports "Threshold cannot be negative" whenever `params["threshold"]` is the decimal text of a negative integer that
`validate.Int` accepts as an integer: a minus sign and digits of non-zero value, in
particular the text in which a negative integer is printed. -/
theorem handler.New_Validate_rejects_threshold (v : Validators) (params : Params) (c : Chan)
    (h : handler.Handler) (hnew : handler.New params c = (some h, none)) :
    (∀ err, v.validateInt (params.get "threshold") = some err →
        "Invalid threshold: " ++ err ∈ h.base.Validate v ∧
          ∃ e ∈ h.base.Validate v, handler.IsInvalidThreshold e) ∧
      (handler.IsNegativeDecimal (params.get "threshold") →
        v.validateInt (params.get "threshold") = none →
          handler.thresholdNegative ∈ h.base.Validate v) ∧
      (∀ n : Int, n < 0 → params.get "threshold" = toString n →
        v.validateInt (params.get "threshold") = none →
          handler.thresholdNegative ∈ h.base.Validate v) := by
  have hcanon : ∀ n : Int, n < 0 → params.get "threshold" = toString n →
      handler.IsNegativeDecimal (params.get "threshold") := by
    intro n hn htext
    rw [htext]
    exact isNegativeDecimal_toString n hn
  suffices hmain : (∀ err, v.validateInt (params.get "threshold") = some err →
        "Invalid threshold: " ++ err ∈ h.base.Validate v ∧
          ∃ e ∈ h.base.Validate v, handler.IsInvalidThreshold e) ∧
      (handler.IsNegativeDecimal (params.get "threshold") →
        v.validateInt (params.get "threshold") = none →
          handler.thresholdNegative ∈ h.base.Validate v) from
    ⟨hmain.1, hmain.2, fun n hn htext hacc => hmain.2 (hcanon n hn htext) hacc⟩
  unfold handler.New at hnew
  by_cases ht : params.get "type" = "syslog"
  · simp only [ht, if_true, Prod.mk.injEq, Option.some.injEq, and_true] at hnew
    subst hnew
    simp only [handler.Handler.base, handler.sysloghandlerNew, handler.BaseHandler.Validate]
    constructor
    · intro err herr
      rw [herr]
      exact ⟨by simp, _, by simp, err, rfl⟩
    · intro hneg hacc
      rw [hacc]
      have hlt := Atoi_negative _ hneg
      simp [hlt, handler.thresholdNegative]
  · simp [ht] at hnew

/-- C8 at concrete inputs, with an integer check that accepts what `strconv.Atoi` parses:
the threshold `"many"` gets the "Invalid threshold" error and the threshold `"-1"` gets
"Threshold cannot be negative". -/
theorem handler.New_Validate_rejects_threshold_witness :
    (∃ h, handler.New badHandler 0 = (some h, none) ∧
        "Invalid threshold: not an integer" ∈ h.base.Validate specValidators) ∧
      (∃ h, handler.New [("type", "syslog"), ("threshold", "-1")] 0 = (some h, none) ∧
        handler.thresholdNegative ∈ h.base.Validate specValidators) :=
  ⟨⟨_, rfl,
      ((handler.New_Validate_rejects_threshold specValidators badHandler 0 _ rfl).1
        "not an integer" (by decide)).1⟩,
    ⟨_, rfl,
      (handler.New_Validate_rejects_threshold specValidators
        [("type", "syslog"), ("threshold", "-1")] 0 _ rfl).2.2 (-1) (by decide) (by decide)
        (by decide)⟩⟩

/-- A handler parameter set whose threshold is the text of the negative integer just below
the least 64-bit integer. -/
theorem handler.belowRange_text :
    Params.get [("type", "syslog"), ("threshold", "-9223372036854775809")] "threshold" =
      toString (-9223372036854775809 : Int) := by
  decide

/-- C8, refuted as stated: the threshold `"-9223372036854775809"` is the decimal text of a
negative integer, yet with an integer check that accepts what `strconv.Atoi` parses the
handler built by `handler.New` gets the "Invalid threshold" error alone from
`BaseHandler.Validate`; "Threshold cannot be negative" is not in the list. -/
theorem handler.New_Validate_negative_out_of_range :
    ∃ h, handler.New [("type", "syslog"), ("threshold", "-9223372036854775809")] 0 =
        (some h, none) ∧
      (-9223372036854775809 : Int) < 0 ∧
      Params.get [("type", "syslog"), ("threshold", "-9223372036854775809")] "threshold" =
        toString (-9223372036854775809 : Int) ∧
      handler.IsNegativeDecimal
        (Params.get [("type", "syslog"), ("threshold", "-9223372036854775809")] "threshold") ∧
      h.base.Validate specValidators = ["Invalid threshold: not an integer"] ∧
      handler.thresholdNegative ∉ h.base.Validate specValidators := by
  refine ⟨_, rfl, by decide, handler.belowRange_text, ?_, by decide, by decide⟩
  rw [handler.belowRange_text]
  exact isNegativeDecimal_toString _ (by decide)

/-! ## The receive loop of a handler -/

theorem handler.BaseHandler.Start_run (alerts : List Alert) :
    ∀ (fuel : Nat) (trace : List handler.LoopEvent), alerts.length < fuel →
      handler.BaseHandler.Start fuel alerts trace =
        (trace ++ alerts.flatMap handler.iteration ++
          [handler.LoopEvent.log "Checking for alerts"], true) := by
  induction alerts with
  | nil =>
    intro fuel trace hfuel
    cases fuel with
    | zero => simp at hfuel
    | succ fuel => simp [handler.BaseHandler.Start]
  | cons a rest ih =>
    intro fuel trace hfuel
    cases fuel with
    | zero => simp at hfuel
    | succ fuel =>
      have hrest : rest.length < fuel := by simpa using hfuel
      simp [handler.BaseHandler.Start, ih fuel _ hrest, handler.iteration]

theorem handler.handledAlerts_iterations (alerts : List Alert) :
    handler.handledAlerts (alerts.flatMap handler.iteration ++
      [handler.LoopEvent.log "Checking for alerts"]) = alerts := by
  induction alerts with
  | nil => simp [handler.handledAlerts]
  | cons a rest ih =>
    simp only [handler.handledAlerts] at ih
    simp [handler.handledAlerts, handler.iteration, ih]

/-- C10: `BaseHandler.Start` handles the alerts delivered on its channel in FIFO order,
none dropped and none reordered.  For every finite sequence of alerts, once the loop has
run more iterations than there are alerts it is parked on the receive, what it did is,
for each alert in delivery order, the block receive-then-`HandleAlert` of that alert (so
each call is over before the next receive), and the calls of `HandleAlert` are exactly
the delivered sequence. -/
theorem handler.BaseHandler.Start_fifo (alerts : List Alert) (fuel : Nat)
    (hfuel : alerts.length < fuel) :
    handler.BaseHandler.Start fuel alerts [] =
        (alerts.flatMap handler.iteration ++ [handler.LoopEvent.log "Checking for alerts"],
          true) ∧
      handler.handledAlerts (handler.BaseHandler.Start fuel alerts []).1 = alerts := by
  have hrun := handler.BaseHandler.Start_run alerts fuel [] hfuel
  rw [List.nil_append] at hrun
  rw [hrun]
  exact ⟨rfl, handler.handledAlerts_iterations alerts⟩

/-- C10 at a concrete input: three alerts, two of them equal, are handled in the order
delivered. -/
theorem handler.BaseHandler.Start_fifo_witness :
    handler.handledAlerts
        (handler.BaseHandler.Start 4 [⟨"a"⟩, ⟨"b"⟩, ⟨"a"⟩] []).1 = [⟨"a"⟩, ⟨"b"⟩, ⟨"a"⟩] :=
  (handler.BaseHandler.Start_fifo [⟨"a"⟩, ⟨"b"⟩, ⟨"a"⟩] 4 (by decide)).2

/-! ## The TCP trap -/

/-- C6: `TCPTrap.Validate` on a trap built by `tcptrap.New` returns the list of the held
base trap, then one "Invalid port" error exactly when `validate.Port` rejects
`params["port"]`, then one "Invalid host" error exactly when `validate.Host` rejects
`params["host"]`.  The list is empty exactly when the base list is empty and both
parameters are accepted, and when both are rejected both errors are in the list. -/
theorem tcptrap.TCPTrap.Validate_complete (v : Validators) (params : Params)
    (baseTrap : tcptrap.trapInterface) :
    (tcptrap.New params baseTrap).Validate v =
        baseTrap.Validate ++
          (v.validatePort (params.get "port")).toList.map (fun err => "Invalid port: " ++ err) ++
          (v.validateHost (params.get "host")).toList.map (fun err => "Invalid host: " ++ err) ∧
      ((tcptrap.New params baseTrap).Validate v = [] ↔
        baseTrap.Validate = [] ∧ v.validatePort (params.get "port") = none ∧
          v.validateHost (params.get "host") = none) ∧
      (∀ portErr hostErr, v.validatePort (params.get "port") = some portErr →
        v.validateHost (params.get "host") = some hostErr →
          "Invalid port: " ++ portErr ∈ (tcptrap.New params baseTrap).Validate v ∧
            "Invalid host: " ++ hostErr ∈ (tcptrap.New params baseTrap).Validate v) := by
  simp only [tcptrap.TCPTrap.Validate, tcptrap.New]
  cases hp : v.validatePort (params.get "port") <;>
    cases hh : v.validateHost (params.get "host") <;> simp

/-- C6 at a concrete input: a trap with port `"0"` and an empty host gets both errors, after
the error its base trap reports. -/
theorem tcptrap.TCPTrap.Validate_complete_witness :
    (tcptrap.New [("port", "0")] ⟨["base"]⟩).Validate specValidators =
      ["base", "Invalid port: port out of range", "Invalid host: malformed host name"] :=
  (tcptrap.TCPTrap.Validate_complete specValidators [("port", "0")] ⟨["base"]⟩).1

/-- C9: for every connection, `handleConnection` returns after closing that connection
exactly once and calling `TriggerAlert` exactly once, with the message
"Received connection from " followed by the text of the remote address, which the message
therefore ends with. -/
theorem tcptrap.TCPTrap.handleConnection_once (trap : tcptrap.TCPTrap) (c : tcptrap.simpleConn) :
    (trap.handleConnection (some c)).2 = tcptrap.Outcome.returned ∧
      tcptrap.closedConns (trap.handleConnection (some c)).1 = [c] ∧
      tcptrap.alertMessages (trap.handleConnection (some c)).1 =
        ["Received connection from " ++ c.remoteAddr] ∧
      c.remoteAddr.data <:+ ("Received connection from " ++ c.remoteAddr).data := by
  refine ⟨rfl, ?_, ?_, ?_⟩
  · simp [tcptrap.TCPTrap.handleConnection, tcptrap.closedConns]
  · simp [tcptrap.TCPTrap.handleConnection, tcptrap.alertMessages]
  · rw [String.data_append]
    exact List.suffix_append _ _

/-- C4, on the code: when `Accept` returns no connection and a temporary `net.Error`, the
accept loop of `TCPTrap.Start` writes nothing to the log and panics in `handleConnection`
on the nil connection; later results of `Accept` are never looked at. -/
theorem tcptrap.TCPTrap.Start_temporary_error_panics (trap : tcptrap.TCPTrap)
    (message : String) (later : List tcptrap.AcceptResult) :
    trap.Start none (⟨none, some ⟨message, true, true⟩⟩ :: later) =
      ([], tcptrap.Outcome.panicked) := by
  simp [tcptrap.TCPTrap.Start, tcptrap.TCPTrap.acceptLoop, tcptrap.TCPTrap.handleConnection,
    tcptrap.acceptLog]

/-! ## The supervisor: closed forms of the loops -/

section supervisorFacts

variable {Trap : Type} (env : Collaborators Trap)

theorem validateHandlersLoop_eq (handlers : List handler.Handler) :
    ∀ (i : Nat) (errors : List Error),
      validateHandlersLoop env i errors handlers =
        ((List.range' i handlers.length).map Event.validateHandler,
          errors ++ handlers.flatMap env.handlerValidate) := by
  induction handlers with
  | nil => intro i errors; simp [validateHandlersLoop]
  | cons h rest ih => intro i errors; simp [validateHandlersLoop, ih, List.range'_succ]

theorem validateHandlers_eq (handlers : List handler.Handler) :
    validateHandlers env handlers =
      ((List.range handlers.length).map Event.validateHandler,
        handlers.flatMap env.handlerValidate) := by
  simp [validateHandlers, validateHandlersLoop_eq, List.range_eq_range']

theorem validateTrapsLoop_eq (traps : List Trap) :
    ∀ (i : Nat) (errors : List Error),
      validateTrapsLoop env i errors traps =
        ((List.range' i traps.length).map Event.validateTrap,
          errors ++ traps.flatMap env.trapValidate) := by
  induction traps with
  | nil => intro i errors; simp [validateTrapsLoop]
  | cons t rest ih => intro i errors; simp [validateTrapsLoop, ih, List.range'_succ]

theorem validateTraps_eq (traps : List Trap) :
    validateTraps env traps =
      ((List.range traps.length).map Event.validateTrap, traps.flatMap env.trapValidate) := by
  simp [validateTraps, validateTrapsLoop_eq, List.range_eq_range']

theorem initHandlersLoop_setup (ps : List Params) :
    ∀ (i : Nat) (hs : List handler.Handler),
      ∀ e ∈ (initHandlersLoop env i hs ps).1, e.isSetup = true := by
  induction ps with
  | nil => intro i hs e he; simp [initHandlersLoop] at he
  | cons p rest ih =>
    intro i hs e he
    rw [initHandlersLoop] at he
    rcases hnew : handler.New p i with ⟨oh, oe⟩
    rw [hnew] at he
    cases oe with
    | some err => simp at he
    | none =>
      cases oh with
      | none =>
        simp only [List.mem_singleton] at he
        rw [he]; rfl
      | some h =>
        simp only [List.mem_cons] at he
        rcases he with he | he | he
        · rw [he]; rfl
        · rw [he]; rfl
        · exact ih _ _ e he

theorem initHandlersLoop_length (ps : List Params) :
    ∀ (i : Nat) (hs out : List handler.Handler) (oe : Option Error),
      (initHandlersLoop env i hs ps).2 = (some out, oe) → out.length = hs.length + ps.length := by
  induction ps with
  | nil =>
    intro i hs out oe h
    simp [initHandlersLoop] at h
    simp [← h.1]
  | cons p rest ih =>
    intro i hs out oe h
    rw [initHandlersLoop] at h
    rcases hnew : handler.New p i with ⟨oh, oe2⟩
    rw [hnew] at h
    cases oe2 with
    | some err => simp at h
    | none =>
      cases oh with
      | none => simp at h
      | some hd =>
        have := ih _ _ out oe h
        simp at this
        simp
        omega

theorem initTrapsLoop_length (ps : List Params) :
    ∀ (ts out : List Trap), initTrapsLoop env ts ps = Except.ok out →
      out.length = ts.length + ps.length := by
  induction ps with
  | nil =>
    intro ts out h
    simp [initTrapsLoop] at h
    simp [← h]
  | cons p rest ih =>
    intro ts out h
    rw [initTrapsLoop] at h
    cases hnew : env.trapNew p with
    | error err => rw [hnew] at h; simp at h
    | ok t =>
      rw [hnew] at h
      have := ih _ out h
      simp at this
      simp
      omega

theorem main_cases (trapParams handlerParams : List Params) :
    ∃ ev0 oh oe, initHandlers env handlerParams = (ev0, oh, oe) ∧
      (∀ e ∈ ev0, e.isSetup = true) ∧
      ((∃ err, oe = some err ∧
          main env trapParams handlerParams =
            ev0 ++ [Event.fatal ("Error initializing handlers: " ++ err)]) ∨
        (oe = none ∧ oh = none ∧ main env trapParams handlerParams = ev0) ∨
        ∃ handlers, oe = none ∧ oh = some handlers ∧ handlers.length = handlerParams.length ∧
          ((handlers.flatMap env.handlerValidate ≠ [] ∧
              main env trapParams handlerParams =
                ev0 ++ (List.range handlerParams.length).map Event.validateHandler ++
                  displayErrors (handlers.flatMap env.handlerValidate) ++ [Event.exit (-1)]) ∨
            (handlers.flatMap env.handlerValidate = [] ∧
              ((∃ err, initTraps env trapParams = Except.error err ∧
                  main env trapParams handlerParams =
                    ev0 ++ (List.range handlerParams.length).map Event.validateHandler ++
                      (List.range handlerParams.length).map Event.startHandler ++
                      [Event.fatal ("Error initializing traps: " ++ err)]) ∨
                ∃ traps, initTraps env trapParams = Except.ok traps ∧
                  traps.length = trapParams.length ∧
                  ((traps.flatMap env.trapValidate ≠ [] ∧
                      main env trapParams handlerParams =
                        ev0 ++ (List.range handlerParams.length).map Event.validateHandler ++
                          (List.range handlerParams.length).map Event.startHandler ++
                          (List.range trapParams.length).map Event.validateTrap ++
                          displayErrors (traps.flatMap env.trapValidate) ++
                          [Event.exit (-1)]) ∨
                    (traps.flatMap env.trapValidate = [] ∧
                      main env trapParams handlerParams =
                        ev0 ++ (List.range handlerParams.length).map Event.validateHandler ++
                          (List.range handlerParams.length).map Event.startHandler ++
                          (List.range trapParams.length).map Event.validateTrap ++
                          (List.range trapParams.length).map Event.startTrap ++
                          [Event.sleepForever])))))) := by
  rcases hinit : initHandlers env handlerParams with ⟨ev0, oh, oe⟩
  refine ⟨ev0, oh, oe, rfl, ?_, ?_⟩
  · intro e he
    have := initHandlersLoop_setup env handlerParams 0 [] e
    rw [initHandlers] at hinit
    rw [hinit] at this
    exact this he
  · cases oe with
    | some err =>
      left
      refine ⟨err, rfl, ?_⟩
      simp [main, hinit]
    | none =>
      right
      cases oh with
      | none =>
        left
        refine ⟨rfl, rfl, ?_⟩
        simp [main, hinit]
      | some handlers =>
        right
        have hlen : handlers.length = handlerParams.length := by
          have := initHandlersLoop_length env handlerParams 0 [] handlers none
          rw [initHandlers] at hinit
          rw [hinit] at this
          simpa using this rfl
        refine ⟨handlers, rfl, rfl, hlen, ?_⟩
        by_cases hv : handlers.flatMap env.handlerValidate = []
        · right
          refine ⟨hv, ?_⟩
          cases htraps : initTraps env trapParams with
          | error err =>
            left
            refine ⟨err, rfl, ?_⟩
            simp [main, hinit, validateHandlers_eq, hv, htraps, startHandlers, hlen]
          | ok traps =>
            right
            have htlen : traps.length = trapParams.length := by
              have := initTrapsLoop_length env trapParams [] traps htraps
              simpa using this
            refine ⟨traps, rfl, htlen, ?_⟩
            by_cases htv : traps.flatMap env.trapValidate = []
            · right
              refine ⟨htv, ?_⟩
              simp [main, hinit, validateHandlers_eq, hv, htraps, startHandlers, hlen,
                validateTraps_eq, htv, startTraps, htlen]
            · left
              refine ⟨htv, ?_⟩
              have hpos : 0 < (traps.flatMap env.trapValidate).length :=
                List.length_pos.mpr htv
              simp only [main, hinit, validateHandlers_eq, hv, htraps, startHandlers, hlen,
                validateTraps_eq, htlen, List.length_nil, gt_iff_lt, lt_self_iff_false,
                if_false, hpos, if_true]
        · left
          refine ⟨hv, ?_⟩
          have hpos : 0 < (handlers.flatMap env.handlerValidate).length :=
            List.length_pos.mpr hv
          simp only [main, hinit, validateHandlers_eq, hlen, gt_iff_lt, hpos, if_true]

end supervisorFacts

/-! ## Traces -/

theorem calledBefore_split {tr l₂ : List Event} {a b : Event} (l₁ : List Event)
    (h : tr = l₁ ++ l₂)
    (ha : a ∈ l₁) (hb : b ∉ l₁) : CalledBefore tr a b := by
  intro pre post hpre
  rw [h] at hpre
  rcases List.append_eq_append_iff.mp hpre with ⟨a', hpre', _⟩ | ⟨c', hl₁, hrest⟩
  · rw [hpre']
    exact List.mem_append_left _ ha
  · cases c' with
    | nil =>
      have : l₁ = pre := by simpa using hl₁
      rw [← this]
      exact ha
    | cons x rest =>
      exfalso
      apply hb
      have hx : b = x := by
        have := congrArg List.head? hrest
        simpa using this
      rw [hl₁, hx]
      simp

theorem calledBefore_of_not_mem {tr : List Event} {a b : Event} (hb : b ∉ tr) :
    CalledBefore tr a b := by
  intro pre post hpre
  exfalso
  apply hb
  rw [hpre]
  simp

theorem not_mem_of_setup {l : List Event} (hl : ∀ e ∈ l, e.isSetup = true) {e : Event}
    (he : e.isSetup = false) : e ∉ l := by
  intro hmem
  have := hl e hmem
  rw [he] at this
  exact Bool.false_ne_true this

theorem displayed_append (l₁ l₂ : List Event) :
    displayed (l₁ ++ l₂) = displayed l₁ ++ displayed l₂ := by
  simp [displayed, List.filterMap_append]

theorem displayed_displayErrors (errors : List Error) :
    displayed (displayErrors errors) = errors := by
  induction errors with
  | nil => rfl
  | cons e rest ih =>
    simp only [displayed, displayErrors] at ih
    simp [displayed, displayErrors, ih]

theorem displayed_eq_nil {l : List Event} (hl : ∀ err, Event.println err ∉ l) :
    displayed l = [] := by
  induction l with
  | nil => rfl
  | cons e rest ih =>
    have hrest : ∀ err, Event.println err ∉ rest := fun err h =>
      hl err (List.mem_cons_of_mem _ h)
    have ih := ih hrest
    simp only [displayed] at ih
    cases e with
    | println err => exact absurd (List.mem_cons_self _ _) (hl err)
    | _ => simp [displayed, ih]

/-! ## The supervisor: startup order -/

/-- C1, as the code has it: startup in `main` is staged, handlers first.  `Start` is called
on a handler only after `Validate` has been called on every handler, and on a trap only
after `Validate` has been called on every handler and on every trap.  If `Validate` of any
handler returns a non-empty list, `Start` is called on no handler and on no trap; if
`Validate` of any trap returns a non-empty list, `Start` is called on no trap.  The
handlers are started as soon as every handler has validated, before any trap is built. -/
theorem main_staged_startup {Trap : Type} (env : Collaborators Trap)
    (trapParams handlerParams : List Params) :
    (∀ i j, j < handlerParams.length →
      CalledBefore (main env trapParams handlerParams) (Event.validateHandler j)
          (Event.startHandler i) ∧
        CalledBefore (main env trapParams handlerParams) (Event.validateHandler j)
          (Event.startTrap i)) ∧
      (∀ i j, j < trapParams.length →
        CalledBefore (main env trapParams handlerParams) (Event.validateTrap j)
          (Event.startTrap i)) ∧
      (∀ handlers, (initHandlers env handlerParams).2 = (some handlers, none) →
        (∃ h ∈ handlers, env.handlerValidate h ≠ []) →
          ∀ i, Event.startHandler i ∉ main env trapParams handlerParams ∧
            Event.startTrap i ∉ main env trapParams handlerParams) ∧
      (∀ traps, initTraps env trapParams = Except.ok traps →
        (∃ t ∈ traps, env.trapValidate t ≠ []) →
          ∀ i, Event.startTrap i ∉ main env trapParams handlerParams) ∧
      (∀ handlers, (initHandlers env handlerParams).2 = (some handlers, none) →
        (∀ h ∈ handlers, env.handlerValidate h = []) →
          ∀ i, i < handlerParams.length →
            Event.startHandler i ∈ main env trapParams handlerParams) := by
  obtain ⟨ev0, oh, oe, hinit, hsetup, hcases⟩ := main_cases env trapParams handlerParams
  have hS : ∀ i, Event.startHandler i ∉ ev0 := fun i => not_mem_of_setup hsetup rfl
  have hT : ∀ i, Event.startTrap i ∉ ev0 := fun i => not_mem_of_setup hsetup rfl
  rw [hinit]
  rcases hcases with ⟨err, hoe, hmain⟩ | ⟨hoe, hoh, hmain⟩ |
    ⟨handlers, hoe, hoh, hlen, ⟨hv, hmain⟩ | ⟨hv, ⟨err, htraps, hmain⟩ |
      ⟨traps, htraps, htlen, ⟨htv, hmain⟩ | ⟨htv, hmain⟩⟩⟩⟩
  · -- `initHandlers` failed
    have hnoS : ∀ i, Event.startHandler i ∉ main env trapParams handlerParams := by
      intro i; rw [hmain]; simp [hS]
    have hnoT : ∀ i, Event.startTrap i ∉ main env trapParams handlerParams := by
      intro i; rw [hmain]; simp [hT]
    refine ⟨fun i j _ => ⟨calledBefore_of_not_mem (hnoS i), calledBefore_of_not_mem (hnoT i)⟩,
      fun i j _ => calledBefore_of_not_mem (hnoT i), fun _ _ _ i => ⟨hnoS i, hnoT i⟩,
      fun _ _ _ i => hnoT i, ?_⟩
    intro hs h
    rw [hoe] at h
    simp at h
  · -- `initHandlers` panicked
    have hnoS : ∀ i, Event.startHandler i ∉ main env trapParams handlerParams := by
      intro i; rw [hmain]; exact hS i
    have hnoT : ∀ i, Event.startTrap i ∉ main env trapParams handlerParams := by
      intro i; rw [hmain]; exact hT i
    refine ⟨fun i j _ => ⟨calledBefore_of_not_mem (hnoS i), calledBefore_of_not_mem (hnoT i)⟩,
      fun i j _ => calledBefore_of_not_mem (hnoT i), fun _ _ _ i => ⟨hnoS i, hnoT i⟩,
      fun _ _ _ i => hnoT i, ?_⟩
    intro hs h
    rw [hoh] at h
    simp at h
  · -- a handler failed validation
    have hnoS : ∀ i, Event.startHandler i ∉ main env trapParams handlerParams := by
      intro i; rw [hmain]; simp [hS, displayErrors]
    have hnoT : ∀ i, Event.startTrap i ∉ main env trapParams handlerParams := by
      intro i; rw [hmain]; simp [hT, displayErrors]
    refine ⟨fun i j _ => ⟨calledBefore_of_not_mem (hnoS i), calledBefore_of_not_mem (hnoT i)⟩,
      fun i j _ => calledBefore_of_not_mem (hnoT i), fun _ _ _ i => ⟨hnoS i, hnoT i⟩,
      fun _ _ _ i => hnoT i, ?_⟩
    intro hs h hall
    rw [hoh, hoe] at h
    simp only [Prod.mk.injEq, Option.some.injEq, and_true] at h
    subst h
    exact absurd (List.flatMap_eq_nil_iff.mpr hall) hv
  · -- `initTraps` failed after the handlers were started
    have hnoT : ∀ i, Event.startTrap i ∉ main env trapParams handlerParams := by
      intro i; rw [hmain]; simp [hT]
    refine ⟨fun i j hj => ⟨?_, calledBefore_of_not_mem (hnoT i)⟩,
      fun i j _ => calledBefore_of_not_mem (hnoT i), ?_, fun _ _ _ i => hnoT i, ?_⟩
    · refine calledBefore_split (ev0 ++ (List.range handlerParams.length).map
        Event.validateHandler) (by rw [hmain]; simp only [List.append_assoc]; rfl) ?_ ?_
      · simp [hj]
      · simp [hS]
    · intro hs h hex
      rw [hoh, hoe] at h
      simp only [Prod.mk.injEq, Option.some.injEq, and_true] at h
      subst h
      obtain ⟨x, hx, hne⟩ := hex
      exact absurd (List.flatMap_eq_nil_iff.mp hv x hx) hne
    · intro hs _ _ i hi
      rw [hmain]
      simp [hi]
  · -- a trap failed validation after the handlers were started
    have hnoT : ∀ i, Event.startTrap i ∉ main env trapParams handlerParams := by
      intro i; rw [hmain]; simp [hT, displayErrors]
    refine ⟨fun i j hj => ⟨?_, calledBefore_of_not_mem (hnoT i)⟩,
      fun i j _ => calledBefore_of_not_mem (hnoT i), ?_, fun _ _ _ i => hnoT i, ?_⟩
    · refine calledBefore_split (ev0 ++ (List.range handlerParams.length).map
        Event.validateHandler) (by rw [hmain]; simp only [List.append_assoc]; rfl) ?_ ?_
      · simp [hj]
      · simp [hS]
    · intro hs h hex
      rw [hoh, hoe] at h
      simp only [Prod.mk.injEq, Option.some.injEq, and_true] at h
      subst h
      obtain ⟨x, hx, hne⟩ := hex
      exact absurd (List.flatMap_eq_nil_iff.mp hv x hx) hne
    · intro hs _ _ i hi
      rw [hmain]
      simp [hi]
  · -- everything validated
    refine ⟨fun i j hj => ⟨?_, ?_⟩, fun i j hj => ?_, ?_, ?_, ?_⟩
    · refine calledBefore_split (ev0 ++ (List.range handlerParams.length).map
        Event.validateHandler) (by rw [hmain]; simp only [List.append_assoc]; rfl) ?_ ?_
      · simp [hj]
      · simp [hS]
    · refine calledBefore_split (ev0 ++ (List.range handlerParams.length).map
        Event.validateHandler) (by rw [hmain]; simp only [List.append_assoc]; rfl) ?_ ?_
      · simp [hj]
      · simp [hT]
    · refine calledBefore_split (ev0 ++ (List.range handlerParams.length).map
        Event.validateHandler ++ (List.range handlerParams.length).map Event.startHandler ++
        (List.range trapParams.length).map Event.validateTrap)
        (by rw [hmain]; simp only [List.append_assoc]; rfl) ?_ ?_
      · simp [hj]
      · simp [hT]
    · intro hs h hex
      rw [hoh, hoe] at h
      simp only [Prod.mk.injEq, Option.some.injEq, and_true] at h
      subst h
      obtain ⟨x, hx, hne⟩ := hex
      exact absurd (List.flatMap_eq_nil_iff.mp hv x hx) hne
    · intro ts h hex
      rw [htraps] at h
      simp only [Except.ok.injEq] at h
      subst h
      obtain ⟨x, hx, hne⟩ := hex
      exact absurd (List.flatMap_eq_nil_iff.mp htv x hx) hne
    · intro hs _ _ i hi
      rw [hmain]
      simp [hi]

/-- C1 at concrete inputs: with a valid handler and a valid trap, the trap is validated
before it is started; with a valid handler and a trap whose port is out of range, the
handler is started all the same. -/
theorem main_staged_startup_witness :
    CalledBefore (main specCollaborators [goodTrap] [goodHandler]) (Event.validateTrap 0)
        (Event.startTrap 0) ∧
      Event.startHandler 0 ∈ main specCollaborators [badTrap] [goodHandler] :=
  ⟨(main_staged_startup specCollaborators [goodTrap] [goodHandler]).2.1 0 0 (by decide),
    (main_staged_startup specCollaborators [badTrap] [goodHandler]).2.2.2.2 _ rfl
      (by decide) 0 (by decide)⟩

theorem main_goodHandler_badTrap :
    main specCollaborators [badTrap] [goodHandler] =
      [Event.handlerInit 0 none, Event.addReceiver 0, Event.validateHandler 0,
        Event.startHandler 0, Event.validateTrap 0,
        Event.println "Invalid port: port out of range", Event.exit (-1)] := by
  rfl

/-- C1, refuted as stated: for the configuration of one valid handler and one trap whose
port is `"0"`, the handler is started before `Validate` is called on the trap, and it is
started although `Validate` of the trap returns a non-empty list. -/
theorem main_not_all_or_nothing :
    ¬ ValidateAllBeforeAnyStart specCollaborators [badTrap] [goodHandler] ∧
      ¬ NoStartWhenInvalid specCollaborators [badTrap] [goodHandler] := by
  constructor
  · intro h
    have hcb := ((h 0).2 0 (by decide)).1
    have hmem := hcb [Event.handlerInit 0 none, Event.addReceiver 0, Event.validateHandler 0]
      [Event.validateTrap 0, Event.println "Invalid port: port out of range", Event.exit (-1)]
      main_goodHandler_badTrap
    simp at hmem
  · intro h
    have hno := (h (Or.inr ⟨[tcptrap.New badTrap specBaseTrap], rfl,
      tcptrap.New badTrap specBaseTrap, List.mem_singleton_self _, by decide⟩) 0).1
    apply hno
    rw [main_goodHandler_badTrap]
    simp

/-! ## The supervisor: what is displayed on a validation failure -/

/-- C5, as the code has it: validation errors are collected within each stage.  Whenever
`main` exits because of validation errors, it has called `Validate` on every handler;
then either some handler reported an error, what is displayed is the concatenation of the
error lists of all handlers, and `Validate` has been called on no trap; or no handler
reported an error, `Validate` has been called on every trap, and what is displayed is the
concatenation of the error lists of all handlers and all traps. -/
theorem main_collects_per_stage {Trap : Type} (env : Collaborators Trap)
    (trapParams handlerParams : List Params)
    (hexit : Event.exit (-1) ∈ main env trapParams handlerParams) :
    ∃ handlers, (initHandlers env handlerParams).2 = (some handlers, none) ∧
      (∀ j, j < handlerParams.length →
        Event.validateHandler j ∈ main env trapParams handlerParams) ∧
      ((handlers.flatMap env.handlerValidate ≠ [] ∧
          displayed (main env trapParams handlerParams) =
            handlers.flatMap env.handlerValidate ∧
          ∀ j, Event.validateTrap j ∉ main env trapParams handlerParams) ∨
        (handlers.flatMap env.handlerValidate = [] ∧
          ∃ traps, initTraps env trapParams = Except.ok traps ∧
            traps.flatMap env.trapValidate ≠ [] ∧
            (∀ j, j < trapParams.length →
              Event.validateTrap j ∈ main env trapParams handlerParams) ∧
            displayed (main env trapParams handlerParams) =
              handlers.flatMap env.handlerValidate ++ traps.flatMap env.trapValidate)) := by
  obtain ⟨ev0, oh, oe, hinit, hsetup, hcases⟩ := main_cases env trapParams handlerParams
  have hE : Event.exit (-1) ∉ ev0 := not_mem_of_setup hsetup rfl
  have hV : ∀ j, Event.validateTrap j ∉ ev0 := fun j => not_mem_of_setup hsetup rfl
  have hP : ∀ err, Event.println err ∉ ev0 := fun err => not_mem_of_setup hsetup rfl
  have hd0 : displayed ev0 = [] := displayed_eq_nil hP
  have hdV : ∀ n, displayed ((List.range n).map Event.validateHandler) = [] := fun n =>
    displayed_eq_nil (by simp)
  have hdS : ∀ n, displayed ((List.range n).map Event.startHandler) = [] := fun n =>
    displayed_eq_nil (by simp)
  have hdT : ∀ n, displayed ((List.range n).map Event.validateTrap) = [] := fun n =>
    displayed_eq_nil (by simp)
  have hdE : displayed [Event.exit (-1)] = [] := rfl
  rw [hinit]
  rcases hcases with ⟨err, hoe, hmain⟩ | ⟨hoe, hoh, hmain⟩ |
    ⟨handlers, hoe, hoh, hlen, ⟨hv, hmain⟩ | ⟨hv, ⟨err, htraps, hmain⟩ |
      ⟨traps, htraps, htlen, ⟨htv, hmain⟩ | ⟨htv, hmain⟩⟩⟩⟩
  · rw [hmain] at hexit
    simp [hE] at hexit
  · rw [hmain] at hexit
    exact absurd hexit hE
  · refine ⟨handlers, by rw [hoh, hoe], ?_, Or.inl ⟨hv, ?_, ?_⟩⟩
    · intro j hj
      rw [hmain]
      simp [hj]
    · rw [hmain]
      simp [displayed_append, hd0, hdV, hdE, displayed_displayErrors]
    · intro j
      rw [hmain]
      simp [hV, displayErrors]
  · rw [hmain] at hexit
    simp [hE] at hexit
  · refine ⟨handlers, by rw [hoh, hoe], ?_, Or.inr ⟨hv, traps, htraps, htv, ?_, ?_⟩⟩
    · intro j hj
      rw [hmain]
      simp [hj]
    · intro j hj
      rw [hmain]
      simp [hj]
    · rw [hmain, hv]
      simp [displayed_append, hd0, hdV, hdS, hdT, hdE, displayed_displayErrors]
  · rw [hmain] at hexit
    simp [hE] at hexit

theorem main_badHandler_badTrap :
    main specCollaborators [badTrap] [badHandler] =
      [Event.handlerInit 0 none, Event.addReceiver 0, Event.validateHandler 0,
        Event.println "Invalid threshold: not an integer", Event.exit (-1)] := by
  rfl

/-- C5 at a concrete input: with a handler whose threshold is not an integer and a trap
whose port is out of range, `main` exits, displays the handler's error alone, and has not
validated the trap. -/
theorem main_collects_per_stage_witness :
    ∃ handlers, (initHandlers specCollaborators [badHandler]).2 = (some handlers, none) ∧
      (∀ j, j < [badHandler].length →
        Event.validateHandler j ∈ main specCollaborators [badTrap] [badHandler]) ∧
      ((handlers.flatMap specCollaborators.handlerValidate ≠ [] ∧
          displayed (main specCollaborators [badTrap] [badHandler]) =
            handlers.flatMap specCollaborators.handlerValidate ∧
          ∀ j, Event.validateTrap j ∉ main specCollaborators [badTrap] [badHandler]) ∨
        (handlers.flatMap specCollaborators.handlerValidate = [] ∧
          ∃ traps, initTraps specCollaborators [badTrap] = Except.ok traps ∧
            traps.flatMap specCollaborators.trapValidate ≠ [] ∧
            (∀ j, j < [badTrap].length →
              Event.validateTrap j ∈ main specCollaborators [badTrap] [badHandler]) ∧
            displayed (main specCollaborators [badTrap] [badHandler]) =
              handlers.flatMap specCollaborators.handlerValidate ++
                traps.flatMap specCollaborators.trapValidate)) :=
  main_collects_per_stage specCollaborators [badTrap] [badHandler] (by decide)

/-- C5, refuted as stated: with a handler whose threshold is not an integer and a trap
whose port is out of range, `main` exits on the handler's error without having called
`Validate` on the trap, whose error is not displayed. -/
theorem main_not_collects_all :
    ¬ CollectsAllErrors specCollaborators [badTrap] [badHandler] := by
  intro h
  have hexit : Event.exit (-1) ∈ main specCollaborators [badTrap] [badHandler] := by
    rw [main_badHandler_badTrap]
    simp
  have hmem := (h hexit).2.1 0 (by decide)
  rw [main_badHandler_badTrap] at hmem
  simp at hmem

/-! ## The supervisor: the result of `Init` -/

/-- C3, on the code: when `Init` of the one configured handler returns an error,
`initHandlers` calls it, returns the handler with a nil error all the same, and `main`
goes on to start that handler and the traps. -/
theorem initHandlers_drops_Init_error :
    Event.handlerInit 0 (some "cannot open the log sink") ∈
        (initHandlers sinkDownCollaborators [goodHandler]).1 ∧
      (initHandlers sinkDownCollaborators [goodHandler]).2.2 = none ∧
      main sinkDownCollaborators [goodTrap] [goodHandler] =
        [Event.handlerInit 0 (some "cannot open the log sink"), Event.addReceiver 0,
          Event.validateHandler 0, Event.startHandler 0, Event.validateTrap 0,
          Event.startTrap 0, Event.sleepForever] := by
  refine ⟨by decide, rfl, rfl⟩

end Beartrap
